import Mathlib

/-!
Shallow embedding of the `loxide` lexical scanner (`src/main.rs`,
`Tokenizer::tokenize`).

The Rust scanner walks a peekable `chars().enumerate()` iterator over the
source text.  We model the iterator state as the list of remaining
characters, the `line` counter as a `Nat` starting at 0, and the three
`panic!` sites plus the `unimplemented!()` sites as an `Except` error.
String-token payloads are modelled as the list of characters between the
quotes; this coincides with the byte-slice `&script[i+1 .. i+1+chars]`
taken by the source exactly when the input is ASCII (the source indexes
bytes with character counts, so only ASCII inputs are byte/char aligned).
The `f32` payload of number tokens is modelled as the exact decimal
rational, see `parseNumRun`.

The loop body is reproduced branch by branch.  One structural point of the
source that matters everywhere: after the `match c` expression of an
iteration, the loop always executes one more `iter.next()` (line 197 of
the source), so every branch that leaves a peeked character unconsumed has
that character dropped by this trailing advance.

Recursion is by fuel (the loop consumes at least one character per
iteration, so `length + 1` fuel always suffices); running out of fuel
yields the artificial `ScanError.OutOfFuel`, which `tokenize` never
produces since it supplies sufficient fuel.
-/

namespace Loxide

/-- The token type of `src/main.rs` (`enum Token`).  `String` carries the
characters between the quotes, `Number` the parsed numeric value
(modelled as an exact rational, see `parseNumRun`). -/
inductive Token where
  | LeftParen
  | RightParen
  | LeftBrace
  | RightBrace
  | Comma
  | Dot
  | Minus
  | Plus
  | Semicolon
  | Slash
  | Star
  | Bang
  | BangEqual
  | Equal
  | EqualEqual
  | Greater
  | GreaterEqual
  | Less
  | LessEqual
  | Identifier
  | String (chars : List Char)
  | Number (value : ℚ)
  | And
  | Class
  | Else
  | False
  | Fun
  | For
  | If
  | Nil
  | Or
  | Print
  | Return
  | Super
  | This
  | True
  | Var
  | While
  | Eof
deriving DecidableEq, Repr

/-- The fatal outcomes of `Tokenizer::tokenize`: the three `panic!` calls
(`Missing closing "`, `Unexpected number literal`, `Unexpected token`) and
the `unimplemented!()` arms reached when `!`, `=`, `>`, `<` or `/` is the
last character.  `OutOfFuel` is an artifact of the fuel-based embedding and
is never returned when the fuel exceeds the input length. -/
inductive ScanError where
  | UnterminatedString (line : Nat)
  | InvalidNumber (line : Nat)
  | UnexpectedCharacter (line : Nat)
  | Unimplemented
  | OutOfFuel
deriving DecidableEq, Repr

instance {ε α : Type} [DecidableEq ε] [DecidableEq α] : DecidableEq (Except ε α) := fun a b =>
  match a, b with
  | .ok x, .ok y =>
    if h : x = y then isTrue (by rw [h]) else isFalse (fun hh => h (Except.ok.inj hh))
  | .error x, .error y =>
    if h : x = y then isTrue (by rw [h]) else isFalse (fun hh => h (Except.error.inj hh))
  | .ok _, .error _ => isFalse (fun hh => Except.noConfusion hh)
  | .error _, .ok _ => isFalse (fun hh => Except.noConfusion hh)

/-- `tokens.push(token)` on a pending fallible rest-of-scan. -/
def consTok (t : Token) : Except ScanError (List Token) → Except ScanError (List Token)
  | .ok toks => .ok (t :: toks)
  | .error e => .error e

/-- The character class consumed by the numeric-literal branch:
`c.is_ascii_digit() || *c == '.'`. -/
def isDigitDot (c : Char) : Bool := c.isDigit || c == '.'

/-- Digit-string value, most significant first. -/
def digitsVal (ds : List Char) : Nat :=
  ds.foldl (fun n d => 10 * n + (d.toNat - '0'.toNat)) 0

/-- Models the external Rust call `str::parse::<f32>` on the runs the
scanner can produce (nonempty runs of ASCII digits and dots starting with
a digit): the parse succeeds exactly when the run contains at most one
dot, and the value is modelled as the exact decimal rational (the
rounding to the nearest `f32` performed by Rust is abstracted away). -/
def parseNumRun (run : List Char) : Option ℚ :=
  if run.count '.' ≤ 1 then
    let intPart := run.takeWhile (· != '.')
    let frac := (run.dropWhile (· != '.')).tail
    some (Rat.divInt (digitsVal intPart * 10 ^ frac.length + digitsVal frac) (10 ^ frac.length))
  else none

/-- The numeric branch's `take_while` closure runs once on the character
that terminates the run (without consuming it) and increments `line` if
that character is a newline; this helper is that increment. -/
def termNewline : List Char → Nat
  | [] => 0
  | t :: _ => if t == '\n' then 1 else 0

/-- The `while let Some(&(i, c)) = iter.peek()` loop of
`Tokenizer::tokenize`, one fuel unit per iteration.  The first list
argument is the remaining input (the iterator), the `Nat` is `line`.
Every branch ends by accounting for the trailing `iter.next()` of the
loop body (a no-op on an exhausted iterator). -/
def tokenizeLoop : Nat → List Char → Nat → Except ScanError (List Token)
  | 0, _, _ => .error .OutOfFuel
  | _ + 1, [], _ => .ok [Token.Eof]
  | fuel + 1, c :: cs, line =>
    match c with
    | '(' => consTok .LeftParen (tokenizeLoop fuel cs line)
    | ')' => consTok .RightParen (tokenizeLoop fuel cs line)
    | '\x7b' => consTok .LeftBrace (tokenizeLoop fuel cs line)
    | '\x7d' => consTok .RightBrace (tokenizeLoop fuel cs line)
    | ',' => consTok .Comma (tokenizeLoop fuel cs line)
    | ';' => consTok .Semicolon (tokenizeLoop fuel cs line)
    | '.' => consTok .Dot (tokenizeLoop fuel cs line)
    | '-' => consTok .Minus (tokenizeLoop fuel cs line)
    | '+' => consTok .Plus (tokenizeLoop fuel cs line)
    | '*' => consTok .Star (tokenizeLoop fuel cs line)
    | '!' =>
      -- `iter.next()` past the `!`, then peek; the `'='` arm does not
      -- consume the `=` itself, so both arms leave the peeked character
      -- to the trailing `iter.next()`.
      match cs with
      | [] => .error .Unimplemented
      | d :: rest =>
        consTok (if d == '=' then .BangEqual else .Bang) (tokenizeLoop fuel rest line)
    | '=' =>
      -- `iter.next()` past the `=`, then peek; the `'='` arm consumes the
      -- second `=` with its own `iter.next()`, and the trailing advance
      -- then drops one further character.
      match cs with
      | [] => .error .Unimplemented
      | d :: rest =>
        if d == '=' then consTok .EqualEqual (tokenizeLoop fuel rest.tail line)
        else consTok .Equal (tokenizeLoop fuel rest line)
    | '>' =>
      match cs with
      | [] => .error .Unimplemented
      | d :: rest =>
        if d == '=' then consTok .GreaterEqual (tokenizeLoop fuel rest.tail line)
        else consTok .Greater (tokenizeLoop fuel rest line)
    | '<' =>
      match cs with
      | [] => .error .Unimplemented
      | d :: rest =>
        if d == '=' then consTok .LessEqual (tokenizeLoop fuel rest.tail line)
        else consTok .Less (tokenizeLoop fuel rest line)
    | '/' =>
      match cs with
      | [] => .error .Unimplemented
      | d :: rest =>
        if d == '/' then
          -- line comment: the inner `while` breaks at the newline without
          -- consuming it, and the trailing `iter.next()` then drops that
          -- newline (without running the `'\n'` arm, so `line` is not
          -- incremented for it).
          tokenizeLoop fuel ((cs.dropWhile (· != '\n')).tail) line
        else consTok .Slash (tokenizeLoop fuel rest line)
    | '\"' =>
      -- string literal: the `take_while` closure advances the original
      -- iterator over every character up to the closing quote, counting
      -- embedded newlines into `line`; the closing quote, if any, is left
      -- for the trailing `iter.next()`.
      let content := cs.takeWhile (· != '\"')
      let line' := line + content.count '\n'
      match cs.dropWhile (· != '\"') with
      | [] => .error (.UnterminatedString line')
      | _ :: rest => consTok (.String content) (tokenizeLoop fuel rest line')
    | ' ' => tokenizeLoop fuel cs line
    | '\r' => tokenizeLoop fuel cs line
    | '\t' => tokenizeLoop fuel cs line
    | '\n' => tokenizeLoop fuel cs (line + 1)
    | _ =>
      if c.isDigit then
        -- numeric literal: the clone starts at `c` itself, so the run
        -- includes the triggering digit; the closure leaves the
        -- terminating character unconsumed (incrementing `line` if it is
        -- a newline), and the trailing `iter.next()` then drops it.
        let run := (c :: cs).takeWhile isDigitDot
        let after := (c :: cs).dropWhile isDigitDot
        let line' := line + termNewline after
        match parseNumRun run with
        | some q => consTok (.Number q) (tokenizeLoop fuel after.tail line')
        | none => .error (.InvalidNumber line')
      else .error (.UnexpectedCharacter line)

/-- `Tokenizer::tokenize` on a source text: run the loop with sufficient
fuel, `line` starting at 0. -/
def tokenize (s : List Char) : Except ScanError (List Token) :=
  tokenizeLoop (s.length + 1) s 0

/-- Token constructors that some branch of `tokenizeLoop` can actually cons
onto the output (`Eof` is excluded: it is appended only once, after the
loop; `Identifier` and the sixteen keyword constructors are excluded: no
branch produces them). -/
def emittable : Token → Bool
  | .Identifier => false
  | .And | .Class | .Else | .False | .Fun | .For | .If | .Nil | .Or | .Print
  | .Return | .Super | .This | .True | .Var | .While => false
  | .Eof => false
  | _ => true

/-- The sixteen keyword constructors of `Token`. -/
def isKeywordTok : Token → Bool
  | .And | .Class | .Else | .False | .Fun | .For | .If | .Nil | .Or | .Print
  | .Return | .Super | .This | .True | .Var | .While => true
  | _ => false

theorem consTok_ok_iff {t : Token} {r : Except ScanError (List Token)}
    {toks : List Token} :
    consTok t r = .ok toks ↔ ∃ ts, r = .ok ts ∧ toks = t :: ts := by
  cases r with
  | ok ts => simp [consTok, eq_comm]
  | error e => simp [consTok]

/-- Every successful run of the scanning loop produces a list of emittable
tokens followed by exactly the final `Eof` pushed after the loop. -/
theorem tokenizeLoop_ok_shape :
    ∀ fuel s line toks, tokenizeLoop fuel s line = .ok toks →
      ∃ ts, toks = ts ++ [Token.Eof] ∧ ∀ t ∈ ts, emittable t = true := by
  intro fuel
  induction fuel with
  | zero =>
    intro s line toks h
    exact absurd h (by simp [tokenizeLoop])
  | succ fuel ih =>
    intro s line toks h
    match s with
    | [] =>
      simp only [tokenizeLoop, Except.ok.injEq] at h
      exact ⟨[], by simp [← h]⟩
    | c :: cs =>
      simp only [tokenizeLoop] at h
      repeat' split at h
      all_goals
        first
        | exact absurd h (by simp)
        | exact ih _ _ _ h
        | · obtain ⟨ts, hr, rfl⟩ := consTok_ok_iff.mp h
            obtain ⟨ts', rfl, hall⟩ := ih _ _ _ hr
            refine ⟨_ :: ts', rfl, fun t ht => ?_⟩
            rcases List.mem_cons.mp ht with rfl | ht
            · rfl
            · exact hall t ht

theorem emittable_not_keyword (t : Token) (h : emittable t = true) :
    isKeywordTok t = false := by
  cases t <;> first | rfl | exact absurd h (by decide)

/-- C1: the spec claims that after emitting a one-character operator token
(`Bang`, `Equal`, `Greater`, `Less`) the peeked character is left to be
classified as the next token, so that scanning `"=("` yields Equal,
LeftParen, Eof.  The code instead drops the peeked character with the
loop's trailing `iter.next()`: scanning `"=("` yields only Equal then Eof,
and the `(` is never classified. -/
theorem equal_swallows_peeked_char :
    tokenize "=(".toList = .ok [Token.Equal, Token.Eof] ∧
      tokenize "=(".toList ≠ .ok [Token.Equal, Token.LeftParen, Token.Eof] := by
  decide

/-- C2: the spec claims the newline terminating a line comment is handled
by the newline branch and increments `line`, so an error after
`"//c\n"` would be reported at line 1.  The code instead consumes that
newline with the loop's trailing `iter.next()` without incrementing
`line`: the unexpected `@` after the comment is reported at line 0. -/
theorem comment_newline_not_counted :
    tokenize "//c\n@".toList = .error (.UnexpectedCharacter 0) ∧
      tokenize "//c\n@".toList ≠ .error (.UnexpectedCharacter 1) := by
  decide

/-- C3: the spec claims a numeric literal consumes exactly the maximal
digit/dot run and the following character is classified as its own token,
so scanning `"1)"` would yield Number(1.0), RightParen, Eof.  The code
instead drops the character after the run with the loop's trailing
`iter.next()`: scanning `"1)"` yields only Number(1.0) then Eof. -/
theorem number_swallows_following_char :
    tokenize "1)".toList = .ok [Token.Number 1, Token.Eof] ∧
      tokenize "1)".toList ≠ .ok [Token.Number 1, Token.RightParen, Token.Eof] := by
  decide

/-- C4: every successful scan returns a token sequence whose last element
is `Eof`, `Eof` occurs exactly once in it, and scanning the empty input
yields exactly `[Eof]`. -/
theorem tokenize_eof_invariant :
    (∀ s toks, tokenize s = .ok toks →
        toks.getLast? = some Token.Eof ∧ toks.count Token.Eof = 1)
    ∧ tokenize [] = .ok [Token.Eof] := by
  constructor
  · intro s toks h
    obtain ⟨ts, rfl, hall⟩ := tokenizeLoop_ok_shape _ _ _ _ h
    have hz : ts.count Token.Eof = 0 :=
      List.count_eq_zero.mpr fun hm => by
        have := hall _ hm
        simp [emittable] at this
    refine ⟨List.getLast?_concat _, ?_⟩
    rw [List.count_append, hz]
    rfl
  · rfl

theorem tokenize_eof_invariant_witness :
    [Token.LeftParen, Token.Eof].getLast? = some Token.Eof ∧
      [Token.LeftParen, Token.Eof].count Token.Eof = 1 :=
  tokenize_eof_invariant.1 "(".toList [Token.LeftParen, Token.Eof] (by decide)

/-- C5: reaching a `"` whose remaining characters contain no closing `"`
is a fatal unterminated-string error, reported at the line counter after
one increment per newline embedded in the unterminated literal; scanning
`"\"abc"` is a fatal UnterminatedString error. -/
theorem unterminated_string_fatal :
    (∀ fuel cs line, '\"' ∉ cs →
        tokenizeLoop (fuel + 1) ('\"' :: cs) line =
          .error (.UnterminatedString (line + cs.count '\n')))
    ∧ tokenize "\"abc".toList = .error (.UnterminatedString 0) := by
  constructor
  · intro fuel cs line hq
    have hdrop : cs.dropWhile (· != '\"') = [] :=
      List.dropWhile_eq_nil_iff.mpr fun x hx => by
        simp only [bne_iff_ne, ne_eq]
        exact fun e => hq (e ▸ hx)
    have htake : cs.takeWhile (· != '\"') = cs :=
      List.takeWhile_eq_self_iff.mpr fun x hx => by
        simp only [bne_iff_ne, ne_eq]
        exact fun e => hq (e ▸ hx)
    simp only [tokenizeLoop, hdrop, htake]
  · decide

theorem unterminated_string_fatal_witness :
    tokenizeLoop (3 + 1) ('\"' :: "abc".toList) 0 =
      .error (.UnterminatedString (0 + "abc".toList.count '\n')) :=
  unterminated_string_fatal.1 3 "abc".toList 0 (by decide)

/-- C6: scanning `"! != = == > >= < <="` yields Bang, BangEqual, Equal,
EqualEqual, Greater, GreaterEqual, Less, LessEqual, then Eof, and nothing
else. -/
theorem operator_disambiguation :
    tokenize "! != = == > >= < <=".toList =
      .ok [Token.Bang, Token.BangEqual, Token.Equal, Token.EqualEqual,
           Token.Greater, Token.GreaterEqual, Token.Less, Token.LessEqual,
           Token.Eof] := by
  decide

/-- C7: reaching a `"` whose remaining characters contain a closing `"`
emits a String token carrying exactly the characters strictly between the
quotes (no surrounding quotes, no escape processing), consumes the
closing quote, and continues after it with the line counter advanced by
the embedded newlines; `"\"Hello World!\""` scans to that exact String
token then Eof, and `"\"\""` to the empty String token then Eof. -/
theorem string_literal_token :
    (∀ fuel cs line, (∀ c ∈ cs, c.toNat < 128) → '\"' ∈ cs →
        tokenizeLoop (fuel + 1) ('\"' :: cs) line =
          consTok (Token.String (cs.takeWhile (· != '\"')))
            (tokenizeLoop fuel ((cs.dropWhile (· != '\"')).tail)
              (line + (cs.takeWhile (· != '\"')).count '\n')))
    ∧ tokenize "\"Hello World!\"".toList =
        .ok [Token.String "Hello World!".toList, Token.Eof]
    ∧ tokenize "\"\"".toList = .ok [Token.String [], Token.Eof] := by
  refine ⟨?_, by decide, by decide⟩
  intro fuel cs line _ hq
  cases hd : cs.dropWhile (· != '\"') with
  | nil =>
    have := List.dropWhile_eq_nil_iff.mp hd _ hq
    simp at this
  | cons d rest =>
    simp only [tokenizeLoop, hd, List.tail_cons]

theorem string_literal_token_witness :
    tokenizeLoop (2 + 1) ('\"' :: "a\"".toList) 0 =
      consTok (Token.String ("a\"".toList.takeWhile (· != '\"')))
        (tokenizeLoop 2 (("a\"".toList.dropWhile (· != '\"')).tail)
          (0 + ("a\"".toList.takeWhile (· != '\"')).count '\n')) :=
  string_literal_token.1 2 "a\"".toList 0 (by decide) (by decide)

/-- C8: a consumed digit/dot run that parses emits a Number token carrying
the parse result, and a run that fails to parse (such as `1.2.3`) is a
fatal invalid-number error at the current line (after the one increment
the run's terminating character contributes when it is a newline);
`"1234"` scans to Number(1234.0) then Eof and `"12.34"` to Number(12.34)
then Eof. -/
theorem number_literal_parse :
    (∀ fuel c cs line q, c.isDigit = true →
        parseNumRun ((c :: cs).takeWhile isDigitDot) = some q →
        tokenizeLoop (fuel + 1) (c :: cs) line =
          consTok (Token.Number q)
            (tokenizeLoop fuel ((c :: cs).dropWhile isDigitDot).tail
              (line + termNewline ((c :: cs).dropWhile isDigitDot))))
    ∧ (∀ fuel c cs line, c.isDigit = true →
        parseNumRun ((c :: cs).takeWhile isDigitDot) = none →
        tokenizeLoop (fuel + 1) (c :: cs) line =
          .error (.InvalidNumber (line + termNewline ((c :: cs).dropWhile isDigitDot))))
    ∧ tokenize "1234".toList = .ok [Token.Number 1234, Token.Eof]
    ∧ tokenize "12.34".toList = .ok [Token.Number (Rat.divInt 1234 100), Token.Eof]
    ∧ tokenize "1.2.3".toList = .error (.InvalidNumber 0) := by
  refine ⟨?_, ?_, by decide, by decide, by decide⟩
  · intro fuel c cs line q hdig hparse
    simp only [tokenizeLoop]
    split
    all_goals first
      | exact absurd hdig (by decide)
      | simp only [hdig, if_true, hparse]
  · intro fuel c cs line hdig hparse
    simp only [tokenizeLoop]
    split
    all_goals first
      | exact absurd hdig (by decide)
      | simp only [hdig, if_true, hparse]

theorem number_literal_parse_witness :
    (tokenizeLoop (1 + 1) ('1' :: [')']) 0 =
        consTok (Token.Number 1)
          (tokenizeLoop 1 (('1' :: [')']).dropWhile isDigitDot).tail
            (0 + termNewline (('1' :: [')']).dropWhile isDigitDot))))
    ∧ tokenizeLoop (0 + 1) ('1' :: ['.', '.']) 0 =
        .error (.InvalidNumber (0 + termNewline (('1' :: ['.', '.']).dropWhile isDigitDot))) :=
  ⟨number_literal_parse.1 1 '1' [')'] 0 1 (by decide) (by decide),
   number_literal_parse.2.1 0 '1' ['.', '.'] 0 (by decide) (by decide)⟩

/-- C9: a character matching none of the recognized classes (punctuation,
the four peeking operators, slash, quote, whitespace, newline, ASCII
digit) is a fatal unexpected-character error at the current line — this
covers ASCII letters and underscore, since no identifier or keyword
branch exists — and no successful scan ever contains an Identifier token
or any of the sixteen keyword tokens; scanning `"@"` is a fatal
UnexpectedCharacter error. -/
theorem unexpected_character_no_identifier :
    (∀ fuel c cs line,
        c ∉ (['(', ')', '\x7b', '\x7d', ',', ';', '.', '-', '+', '*',
              '!', '=', '>', '<', '/', '\"', ' ', '\r', '\t', '\n'] : List Char) →
        c.isDigit = false →
        tokenizeLoop (fuel + 1) (c :: cs) line = .error (.UnexpectedCharacter line))
    ∧ (∀ s toks, tokenize s = .ok toks →
        Token.Identifier ∉ toks ∧ ∀ t ∈ toks, isKeywordTok t = false)
    ∧ tokenize "@".toList = .error (.UnexpectedCharacter 0) := by
  refine ⟨?_, ?_, by decide⟩
  · intro fuel c cs line hmem hdig
    simp only [tokenizeLoop]
    split
    all_goals first
      | exact absurd (by decide) hmem
      | simp [hdig]
  · intro s toks h
    obtain ⟨ts, rfl, hall⟩ := tokenizeLoop_ok_shape _ _ _ _ h
    constructor
    · intro hmem
      rcases List.mem_append.mp hmem with hm | hm
      · have := hall _ hm
        simp [emittable] at this
      · simp at hm
    · intro t ht
      rcases List.mem_append.mp ht with hm | hm
      · exact emittable_not_keyword _ (hall _ hm)
      · simp at hm
        subst hm
        rfl

theorem unexpected_character_no_identifier_witness :
    tokenizeLoop (0 + 1) ('@' :: []) 0 = .error (.UnexpectedCharacter 0) ∧
      (Token.Identifier ∉ [Token.LeftParen, Token.Eof] ∧
        ∀ t ∈ [Token.LeftParen, Token.Eof], isKeywordTok t = false) :=
  ⟨unexpected_character_no_identifier.1 0 '@' [] 0 (by decide) (by decide),
   unexpected_character_no_identifier.2.1 "(".toList [Token.LeftParen, Token.Eof] (by decide)⟩

/-- C10: when the scanner reaches one of `!`, `=`, `>`, `<`, `/` as the
last remaining character, the peek after advancing past it finds nothing
and the `unimplemented!()` arm panics instead of emitting the
one-character token; scanning `"!"` panics rather than yielding Bang then
Eof. -/
theorem trailing_operator_panics :
    (∀ fuel line c, (c = '!' ∨ c = '=' ∨ c = '>' ∨ c = '<' ∨ c = '/') →
        tokenizeLoop (fuel + 1) [c] line = .error .Unimplemented)
    ∧ tokenize "!".toList = .error .Unimplemented := by
  refine ⟨?_, by decide⟩
  intro fuel line c hc
  rcases hc with rfl | rfl | rfl | rfl | rfl <;> simp [tokenizeLoop]

theorem trailing_operator_panics_witness :
    tokenizeLoop (0 + 1) ['!'] 0 = .error .Unimplemented :=
  trailing_operator_panics.1 0 0 '!' (Or.inl rfl)

end Loxide

